import Mathlib

/-!
Verification development for the tdispo view engine
(lobre/tdispo: bow/views.go, bow/turbo.go, web.go, http.go and the
webapp/bow snapshots of the same engine).

The embedding models, straight from the Go source:
  * the template registry: a page/partial keyed by logical name maps to a
    set of named template blocks (Go `*template.Template` namespaces);
  * template execution (`ExecuteTemplate`): spools output left to right and
    can fail partway, leaving the partial output in the buffer;
  * `renderBuffered`: execute into an isolated buffer, copy to the sink
    only on full success;
  * the build walk (`Views.Parse` / `parseViews`): classify files by
    naming convention, derive logical names (`templateName`), build the
    registries with Go map assignment semantics (later key wins);
  * the two layout-resolution algorithms present in the repository:
      - `bowRender`: bow/views.go `Views.Render` (separate page/partial
        maps, skip-layout flag, no fallback for pages, partials rendered
        via their bare "main" block);
      - `appRender`: web.go `application.render` / http.go `Views.Render` /
        webapp `Core.Render` (single map with a partial flag, fixed
        "layouts/partial" wrapper for partials, "main" fallback);
  * `renderStream`: bow/turbo.go `Views.RenderStream` (turbo stream
    envelope around a buffered partial render, remove shortcut).

Go maps are modelled as association lists with first-match lookup and
replace-or-append assignment.  Machine-level details that no claim touches
(io.Writer failures, html/template context-sensitive escaping beyond the
five standard entities, request plumbing) are simplified and noted inline.
-/

/-- Render data (`map[string]interface{}` restricted to the string values
the claims quantify over). -/
abbrev Data := List (String × String)

/-- Go map lookup: first matching key (maps have unique keys, kept by
`mapSet`). -/
def mapGet {α : Type} : List (String × α) → String → Option α
  | [], _ => none
  | (k, v) :: rest, key => if k = key then some v else mapGet rest key

/-- Go map assignment `m[k] = v`: replace the existing entry or append. -/
def mapSet {α : Type} : List (String × α) → String → α → List (String × α)
  | [], key, v => [(key, v)]
  | (k, w) :: rest, key, v =>
    if k = key then (key, v) :: rest else (k, w) :: mapSet rest key v

/-- One character of Go html/template escaping (htmlEscaper /
attrEscaper entities for the five special characters). -/
def escapeChar (c : Char) : String :=
  if c = '&' then "&amp;"
  else if c = '\'' then "&#39;"
  else if c = '<' then "&lt;"
  else if c = '>' then "&gt;"
  else if c = '"' then "&#34;"
  else String.singleton c

/-- Go html/template escaping of an interpolated value. -/
def escapeHtml (s : String) : String :=
  String.join (s.data.map escapeChar)

/-- Errors surfaced by the engine (the `fmt.Errorf` values in the Go
source, by shape). -/
inductive RenderErr where
  /-- Template execution failed against the supplied data. -/
  | execError (msg : String)
  /-- `ExecuteTemplate` was asked for an undefined template name. -/
  | noTemplate (nm : String)
  /-- `view %s not found`. -/
  | viewNotFound (nm : String)
  /-- `layout %s not found`. -/
  | layoutNotFound (nm : String)
  /-- `partial %s not found` (bow/turbo.go RenderStream). -/
  | fragNotFound (nm : String)
  deriving DecidableEq, Repr

/-- A node of a parsed template body: literal markup, an interpolated data
field (escaped, like `{{ .X }}`), or an action that fails at execution
time (a missing method, an erroring template func, ...). -/
inductive Node where
  | text (s : String)
  | var (key : String)
  | err (msg : String)
  deriving DecidableEq, Repr

/-- Execute a template body against data, Go-style: output is spooled left
to right into the writer and an execution error aborts the run, the
partial output staying in whatever buffer received it. -/
def runNodes (d : Data) : List Node → String × Option RenderErr
  | [] => ("", none)
  | Node.text s :: rest =>
    let r := runNodes d rest
    (s ++ r.1, r.2)
  | Node.var key :: rest =>
    let r := runNodes d rest
    (escapeHtml ((mapGet d key).getD "") ++ r.1, r.2)
  | Node.err msg :: _ => ("", some (RenderErr.execError msg))

/-- A compiled template namespace (`*template.Template`): named blocks,
the root parsed under the name "main". -/
abbrev Template := List (String × List Node)

/-- `tmpl.Lookup(name) != nil`. -/
def hasBlock (t : Template) (nm : String) : Bool :=
  (mapGet t nm).isSome

/-- `tmpl.ExecuteTemplate(buf, name, data)`: partial output plus the
execution error, if any. An undefined name is an error with no output. -/
def executeTemplate (t : Template) (nm : String) (d : Data) : String × Option RenderErr :=
  match mapGet t nm with
  | none => ("", some (RenderErr.noTemplate nm))
  | some body => runNodes d body

/-- bow/views.go `renderBuffered` (also the inline buffer discipline of
web.go `application.render` and webapp `Core.Render`): execute into a
fresh buffer; only on success is the buffer copied to the sink. The sink
is modelled as the string written so far. -/
def renderBuffered (t : Template) (nm : String) (d : Data) (sink : String) : String × Option RenderErr :=
  match executeTemplate t nm d with
  | (_, some e) => (sink, some e)
  | (out, none) => (sink ++ out, none)

/-! ## The build walk: classification, logical names, registries -/

/-- A source path, as its list of segments; the head is the walk root
(e.g. `["html", "layouts", "base.html"]`). -/
structure SrcFile where
  segs : List String
  deriving DecidableEq, Repr

/-- `filepath.Base(path)`. -/
def baseOf (f : SrcFile) : String :=
  f.segs.getLast?.getD ""

/-- `strings.Split(filepath.Dir(path), sep)`. -/
def dirsOf (f : SrcFile) : List String :=
  f.segs.dropLast

/-- Split a character list at its last dot: `some (before, after)`. -/
def extSplit : List Char → Option (List Char × List Char)
  | [] => none
  | c :: rest =>
    match extSplit rest with
    | some (pre, post) => some (c :: pre, post)
    | none => if c = '.' then some ([], rest) else none

/-- `filepath.Ext` of a base name: from the final dot, or empty. -/
def extOf (s : String) : String :=
  match extSplit s.data with
  | some (_, post) => String.mk ('.' :: post)
  | none => ""

/-- `strings.TrimSuffix(base, filepath.Ext(base))`. -/
def stripExt (s : String) : String :=
  match extSplit s.data with
  | some (pre, _) => String.mk pre
  | none => s

/-- The reserved layouts folder name. -/
def layoutsFolder : String := "layouts"

/-- `base[0:1] == "_"`: the reserved marker of a partial file. -/
def hasMarker (s : String) : Bool :=
  s.take 1 = "_"

/-- The three view kinds of the naming convention. -/
inductive ViewKind where
  | page
  | partialView
  | layout
  deriving DecidableEq, Repr

/-- The classification switch of `Views.Parse` / `parseViews`, in source
order: leading marker first (even inside the layouts folder), then the
layouts folder check on the first directory segment below the root
(`dirs[1]`), else page. -/
def classify (f : SrcFile) : ViewKind :=
  if hasMarker (baseOf f) then ViewKind.partialView
  else if (dirsOf f)[1]? = some layoutsFolder then ViewKind.layout
  else ViewKind.page

/-- `filepath.Ext(path) == ".html"`: the walk only keeps html files. -/
def isHtml (f : SrcFile) : Bool :=
  extOf (baseOf f) = ".html"

/-- The `fs.WalkDir` collection pass: walk-ordered (pages, partials,
layouts), skipping every non-html file. -/
def collect : List SrcFile → List SrcFile × List SrcFile × List SrcFile
  | [] => ([], [], [])
  | f :: rest =>
    let c := collect rest
    if isHtml f then
      match classify f with
      | ViewKind.partialView => (c.1, f :: c.2.1, c.2.2)
      | ViewKind.layout => (c.1, c.2.1, f :: c.2.2)
      | ViewKind.page => (f :: c.1, c.2.1, c.2.2)
    else c

/-- `filepath.Join`: drop empty parts, join with "/". -/
def joinSegs (parts : List String) : String :=
  String.intercalate "/" (parts.filter (fun s => s ≠ ""))

/-- `templateName`: strip the extension, strip one leading marker, drop
the root segment, rejoin. -/
def templateName (f : SrcFile) : String :=
  let b := stripExt (baseOf f)
  let b := if hasMarker b then b.drop 1 else b
  joinSegs ((dirsOf f).drop 1 ++ [b])

/-- Add the associated files to a template namespace
(`tmpl.New(templateName(path)).Parse(...)`, in order; a repeated name
replaces the earlier definition). A file whose content cannot be obtained
aborts with that error. (In bow/views.go the `ReadFile` error of an
associated file propagates while its `Parse` error is ignored; the model
does not separate the two, which no claim depends on.) -/
def addAssoc (body : SrcFile → Except String (List Node)) :
    List SrcFile → Template → Except String Template
  | [], acc => Except.ok acc
  | g :: rest, acc =>
    match body g with
    | Except.error e => Except.error e
    | Except.ok b => addAssoc body rest (mapSet acc (templateName g) b)

/-- bow/views.go `parseTemplate`: root parsed as "main", associated files
added under their logical names. -/
def parseTemplate (body : SrcFile → Except String (List Node))
    (main : SrcFile) (assoc : List SrcFile) : Except String Template :=
  match body main with
  | Except.error e => Except.error e
  | Except.ok mb => addAssoc body assoc [("main", mb)]

/-- The page loop of `Views.Parse`: each page compiled with the layouts
attached, stored by logical name with Go map assignment (a colliding name
silently replaces the earlier entry; there is no uniqueness check). -/
def buildPages (body : SrcFile → Except String (List Node)) (layouts : List SrcFile) :
    List SrcFile → List (String × Template) → Except String (List (String × Template))
  | [], acc => Except.ok acc
  | p :: rest, acc =>
    match parseTemplate body p layouts with
    | Except.error e => Except.error e
    | Except.ok t => buildPages body layouts rest (mapSet acc (templateName p) t)

/-- The partial loop of `Views.Parse`: each partial compiled alone
(bow/views.go passes `nil` associated files), same overwrite behaviour. -/
def buildPartials (body : SrcFile → Except String (List Node)) :
    List SrcFile → List (String × Template) → Except String (List (String × Template))
  | [], acc => Except.ok acc
  | p :: rest, acc =>
    match parseTemplate body p [] with
    | Except.error e => Except.error e
    | Except.ok t => buildPartials body rest (mapSet acc (templateName p) t)

/-- The bow view registry: separate page and partial namespaces
(bow/views.go `Views`). -/
structure BowViews where
  pages : List (String × Template)
  partials : List (String × Template)
  deriving DecidableEq, Repr

/-- bow/views.go `Views.Parse`: walk, classify, compile; any single
compilation failure aborts the whole build. -/
def bowParse (body : SrcFile → Except String (List Node)) (files : List SrcFile) :
    Except String BowViews :=
  let c := collect files
  match buildPages body c.2.2 c.1 [] with
  | Except.error e => Except.error e
  | Except.ok pgs =>
    match buildPartials body c.2.1 [] with
    | Except.error e => Except.error e
    | Except.ok prts => Except.ok { pages := pgs, partials := prts }

/-! ## The bow render path (bow/views.go `Views.Render`) -/

/-- The request-scoped layout state: `contextKeyLayout` (explicit
override) and `contextKeyStripLayout` (skip flag). -/
structure BowCtx where
  layout : Option String
  strip : Bool
  deriving DecidableEq, Repr

/-- The layout name requested before the skip check:
`filepath.Join(layoutsFolder, layout)` for an override, else
`filepath.Join(layoutsFolder, "base")`. -/
def requestedLayout : Option String → String
  | some l => "layouts/" ++ l
  | none => "layouts/base"

/-- bow/views.go `Views.Render`, with the error responses (`ServerError`)
modelled as returned errors and the injected data hooks
(`defaultInjectData` / `views.injectData`) as `inj`:
partials are looked up first and rendered by their bare "main" block;
pages resolve the requested layout, fail when it is not attached, and
only then honour the skip flag. -/
def bowRender (inj : Data → Data) (bw : BowViews) (ctx : BowCtx)
    (nm : String) (d : Data) (sink : String) : String × Option RenderErr :=
  match mapGet bw.partials nm with
  | some p => renderBuffered p "main" (inj d) sink
  | none =>
    match mapGet bw.pages nm with
    | none => (sink, some (RenderErr.viewNotFound nm))
    | some v =>
      let lay := requestedLayout ctx.layout
      if hasBlock v lay then
        renderBuffered v (if ctx.strip then "main" else lay) (inj d) sink
      else (sink, some (RenderErr.layoutNotFound lay))

/-! ## The application render path
(web.go `application.render`, http.go `Views.Render`,
webapp `Core.Render`: one registry, partial flag, "main" fallback) -/

/-- A registry entry of the single-map engine: the compiled template plus
the `partial bool` flag (field renamed `isPartial` here). -/
structure AppView where
  tmpl : Template
  isPartial : Bool
  deriving DecidableEq, Repr

/-- The layout resolution of web.go `application.render`: an explicit
override is qualified and must be attached (else `layout %s not found`);
the default is `layouts/base`; the partial flag then forces
`layouts/partial`; finally an unattached resolved layout falls back to
"main". -/
def appResolveLayout (v : AppView) (ov : Option String) : Except RenderErr String :=
  match ov with
  | some l =>
    let lay := "layouts/" ++ l
    if hasBlock v.tmpl lay then
      let lay1 := if v.isPartial then "layouts/partial" else lay
      Except.ok (if hasBlock v.tmpl lay1 then lay1 else "main")
    else Except.error (RenderErr.layoutNotFound lay)
  | none =>
    let lay1 := if v.isPartial then "layouts/partial" else "layouts/base"
    Except.ok (if hasBlock v.tmpl lay1 then lay1 else "main")

/-- web.go `application.render` (= http.go `Views.Render`, webapp
`Core.Render`): look the view up, resolve the layout, inject default data
(`inj`), execute buffered. -/
def appRender (inj : Data → Data) (vs : List (String × AppView)) (ov : Option String)
    (nm : String) (d : Data) (sink : String) : String × Option RenderErr :=
  match mapGet vs nm with
  | none => (sink, some (RenderErr.viewNotFound nm))
  | some v =>
    match appResolveLayout v ov with
    | Except.error e => (sink, some e)
    | Except.ok lay => renderBuffered v.tmpl lay (inj d) sink

/-! ## The turbo stream encoder (bow/turbo.go `Views.RenderStream`) -/

/-- The stream actions. -/
inductive StreamAction where
  | append
  | prepend
  | replace
  | update
  | remove
  | before
  | after
  deriving DecidableEq, Repr

/-- The wire string of an action. -/
def StreamAction.str : StreamAction → String
  | StreamAction.append => "append"
  | StreamAction.prepend => "prepend"
  | StreamAction.replace => "replace"
  | StreamAction.update => "update"
  | StreamAction.remove => "remove"
  | StreamAction.before => "before"
  | StreamAction.after => "after"

/-- The fixed wrapper template of RenderStream, executed with
html/template semantics: `.Action` and `.Target` are attribute-escaped,
`.Content` is `template.HTML` and inserted verbatim. The whitespace is
exactly the wrapper source's: newline + two spaces before `<template>`,
newline + four spaces before the content, newline + two spaces before
`</template>`, newline before `</turbo-stream>`. -/
def streamWrapper (action : StreamAction) (target : String) (content : String) : String :=
  "<turbo-stream action=\"" ++ escapeHtml action.str ++ "\" target=\"" ++ escapeHtml target
    ++ "\">\n  <template>\n    " ++ content ++ "\n  </template>\n</turbo-stream>"

/-- The content fragment of RenderStream: empty for `remove` (no lookup,
no rendering); otherwise the named partial must exist in the partial set
(`partial %s not found`) and is rendered buffered. -/
def streamContent (frags : Template) (action : StreamAction) (nm : String) (d : Data) :
    Except RenderErr String :=
  if action = StreamAction.remove then Except.ok ""
  else if hasBlock frags nm then
    match executeTemplate frags nm d with
    | (_, some e) => Except.error e
    | (out, none) => Except.ok out
  else Except.error (RenderErr.fragNotFound nm)

/-- bow/turbo.go `Views.RenderStream`: hydrate the data, build the content
fragment (with the remove shortcut), wrap it in the fixed turbo-stream
envelope, and write the envelope buffered to the sink. `frags` is the
single partial template set of that engine (`views.partials.Lookup`). -/
def renderStream (inj : Data → Data) (frags : Template) (action : StreamAction)
    (target nm : String) (d : Data) (sink : String) : String × Option RenderErr :=
  match streamContent frags action nm (inj d) with
  | Except.error e => (sink, some e)
  | Except.ok content => (sink ++ streamWrapper action target content, none)

/-! ## Concrete instances used by witnesses and counterexamples -/

/-- A template whose execution fails partway (after emitting "halfway"). -/
def failTmpl : Template := [("body", [Node.text "halfway", Node.err "boom"])]

/-- A page that defines no layout block at all. -/
def pageNoBase : Template := [("main", [Node.text "BODY"])]

/-- A bow registry holding only that page. -/
def bwNoBase : BowViews := { pages := [("p", pageNoBase)], partials := [] }

/-- A page view for the single-map engine with no layout block. -/
def basePage : AppView := { tmpl := [("main", [Node.text "B"])], isPartial := false }

/-- A page with the default base layout attached. -/
def plainPage : Template := [("main", [Node.text "P"]), ("layouts/base", [Node.text "W"])]

/-- Single-map registry for the override test. -/
def appW3 : List (String × AppView) := [("p", { tmpl := plainPage, isPartial := false })]

/-- Bow registry for the override test. -/
def bwW3 : BowViews := { pages := [("p", plainPage)], partials := [] }

/-- A partial with its wrapper attached (single-map engine). -/
def navTmpl : Template := [("main", [Node.text "NAV"]), ("layouts/partial", [Node.text "WRAP"])]

/-- Single-map registry holding the partial "nav". -/
def navViews : List (String × AppView) := [("nav", { tmpl := navTmpl, isPartial := true })]

/-- A page with distinct base-layout and body markup. -/
def skipPage : Template := [("main", [Node.text "BARE"]), ("layouts/base", [Node.text "WRAP"])]

/-- Bow registry holding that page. -/
def bwSkip : BowViews := { pages := [("p", skipPage)], partials := [] }

/-- Two distinct partial source paths deriving the same logical name "a":
`html/_a.html` and `html/a/_.html` (marker stripped to the empty base,
which `filepath.Join` drops). -/
def colA : SrcFile := ⟨["html", "_a.html"]⟩

/-- See `colA`. -/
def colB : SrcFile := ⟨["html", "a", "_.html"]⟩

/-- File contents for the collision build: each file's body is its own
base name, so the surviving registry entry is observable. -/
def colBody : SrcFile → Except String (List Node) := fun f => Except.ok [Node.text (baseOf f)]

/-- The partial set of the stream test: "item" renders to `<li>X</li>`. -/
def itemFrags : Template := [("item", [Node.text "<li>X</li>"])]

/-- A page and a partial sharing the logical name "x". -/
def pageX : Template := [("main", [Node.text "PAGE"]), ("layouts/base", [Node.text "PB"])]

/-- See `pageX`. -/
def fragX : Template := [("main", [Node.text "FRAG"])]

/-- Bow registry with "x" present in both namespaces. -/
def bwBoth : BowViews := { pages := [("x", pageX)], partials := [("x", fragX)] }

/-! ## Helper lemmas -/

/-- Membership helper: a head not satisfying the filter can be skipped. -/
theorem skip_head_iff {α : Type} (Q : α → Prop) {g f : α} {rest : List α}
    (hng : ¬ Q g) : (f ∈ rest ∧ Q f) ↔ (f ∈ g :: rest ∧ Q f) := by
  constructor
  · rintro ⟨hr, hq⟩
    exact ⟨List.mem_cons_of_mem g hr, hq⟩
  · rintro ⟨hmem, hq⟩
    rcases List.mem_cons.mp hmem with rfl | hr
    · exact absurd hq hng
    · exact ⟨hr, hq⟩

/-- Membership helper: a head satisfying the filter is absorbed. -/
theorem cons_head_iff {α : Type} (Q : α → Prop) {g f : α} {rest : List α}
    (hq : Q g) : (f = g ∨ (f ∈ rest ∧ Q f)) ↔ (f ∈ g :: rest ∧ Q f) := by
  constructor
  · rintro (rfl | ⟨hr, hqf⟩)
    · exact ⟨List.mem_cons_self _ _, hq⟩
    · exact ⟨List.mem_cons_of_mem _ hr, hqf⟩
  · rintro ⟨hmem, hqf⟩
    rcases List.mem_cons.mp hmem with rfl | hr
    · exact Or.inl rfl
    · exact Or.inr ⟨hr, hqf⟩

/-! ## Claim theorems -/

/-- Claim C1 (confirmed): for every view, layout name, data value and
sink, if template execution fails partway through then `renderBuffered`
leaves the sink untouched (exactly zero bytes written) and returns the
execution error; the buffer's content is copied to the sink only when
execution completes without error. -/
theorem render_buffered_atomic (t : Template) (nm : String) (d : Data) (sink : String) :
    (∀ e, (executeTemplate t nm d).2 = some e → renderBuffered t nm d sink = (sink, some e))
  ∧ ((executeTemplate t nm d).2 = none →
      renderBuffered t nm d sink = (sink ++ (executeTemplate t nm d).1, none)) := by
  rcases hx : executeTemplate t nm d with ⟨out, er⟩
  cases er with
  | none =>
    constructor
    · intro e he
      simp at he
    · intro _
      simp [renderBuffered, hx]
  | some e0 =>
    constructor
    · intro e he
      simp at he
      subst he
      simp [renderBuffered, hx]
    · intro hn
      simp at hn

/-- Witness for C1: a template failing after emitting "halfway" leaves
the sink at "SINK" and surfaces the error. -/
theorem render_buffered_atomic_witness :
    renderBuffered failTmpl "body" [] "SINK" = ("SINK", some (RenderErr.execError "boom")) :=
  (render_buffered_atomic failTmpl "body" [] "SINK").1 (RenderErr.execError "boom") (by decide)

/-- Counterexample to claim C2: in bow/views.go `Views.Render`, a page
render on the non-override branch (default "layouts/base") whose resolved
layout is absent from the attached set fails with `layout not found`
instead of falling back to the "main" block (which would have produced
("BODY", none)). -/
theorem bow_no_main_fallback_cex :
    bowRender id bwNoBase ⟨none, false⟩ "p" [] ""
        = ("", some (RenderErr.layoutNotFound "layouts/base"))
    ∧ bowRender id bwNoBase ⟨none, false⟩ "p" [] ""
        ≠ renderBuffered pageNoBase "main" [] "" := by
  decide

/-- Claim C2 as amended (the fallback holds in the single-map engine of
web.go / http.go / webapp Core.Render, not in bow/views.go): when the
layout was resolved by a non-override branch — the default base wrapper,
or the fixed partial wrapper, reached either with no override or with an
override naming an attached layout — and the resolved name is absent from
the attached set, the render executes the bare "main" block instead of
failing. -/
theorem app_main_fallback (inj : Data → Data) (vs : List (String × AppView)) (ov : Option String)
    (nm : String) (d : Data) (sink : String) (v : AppView)
    (hv : mapGet vs nm = some v)
    (hbr : ov = none ∨ (v.isPartial = true ∧ ∃ l, ov = some l ∧ hasBlock v.tmpl ("layouts/" ++ l) = true))
    (habs : hasBlock v.tmpl (if v.isPartial then "layouts/partial" else "layouts/base") = false) :
    appRender inj vs ov nm d sink = renderBuffered v.tmpl "main" (inj d) sink := by
  have hres : appResolveLayout v ov = Except.ok "main" := by
    rcases hbr with rfl | ⟨hp, l, rfl, hpres⟩
    · simp [appResolveLayout, habs]
    · simp [hp] at habs
      simp [appResolveLayout, hpres, hp, habs]
  simp [appRender, hv, hres]

/-- Witness for the amended C2: a page with no attached layouts, rendered
with no override, executes its bare "main" block. -/
theorem app_main_fallback_witness :
    appRender id [("p", basePage)] none "p" [] "" = renderBuffered basePage.tmpl "main" [] "" :=
  app_main_fallback id [("p", basePage)] none "p" [] "" basePage (by decide) (Or.inl rfl)
    (by decide)

/-- Claim C3 (confirmed): in both engines, a render carrying an explicit
layout override whose layouts-folder-qualified name is absent from the
view's attached set fails with `layout not found` and writes nothing —
no other layout (and no "main" fallback) is substituted. The bow half
holds for either value of the skip flag. -/
theorem explicit_override_missing_fails (inj : Data → Data) (vs : List (String × AppView))
    (bw : BowViews) (l nm : String) (d : Data) (sink : String) (strip : Bool)
    (v : AppView) (hv : mapGet vs nm = some v)
    (hva : hasBlock v.tmpl ("layouts/" ++ l) = false)
    (t : Template) (hbp : mapGet bw.partials nm = none) (hbg : mapGet bw.pages nm = some t)
    (hba : hasBlock t ("layouts/" ++ l) = false) :
    appRender inj vs (some l) nm d sink = (sink, some (RenderErr.layoutNotFound ("layouts/" ++ l)))
    ∧ bowRender inj bw ⟨some l, strip⟩ nm d sink
        = (sink, some (RenderErr.layoutNotFound ("layouts/" ++ l))) := by
  constructor
  · simp [appRender, hv, appResolveLayout, hva]
  · simp [bowRender, hbp, hbg, requestedLayout, hba]

/-- Witness for C3: overriding with the unattached layout "alt" fails in
both engines. -/
theorem explicit_override_missing_fails_witness :
    appRender id appW3 (some "alt") "p" [] "" = ("", some (RenderErr.layoutNotFound "layouts/alt"))
    ∧ bowRender id bwW3 ⟨some "alt", false⟩ "p" [] ""
        = ("", some (RenderErr.layoutNotFound "layouts/alt")) :=
  explicit_override_missing_fails id appW3 bwW3 "alt" "p" [] "" false
    { tmpl := plainPage, isPartial := false } (by decide) (by decide)
    plainPage (by decide) (by decide) (by decide)

/-- Counterexample to claim C4: a full render of the Partial "nav" with an
explicit override naming an unattached layout does not select the fixed
"layouts/partial" wrapper — web.go `application.render` checks the
override before the partial flag and fails with `layout not found`. -/
theorem app_override_beats_wrapper_cex :
    appRender id navViews (some "zzz") "nav" [] ""
        = ("", some (RenderErr.layoutNotFound "layouts/zzz"))
    ∧ appRender id navViews (some "zzz") "nav" [] ""
        ≠ renderBuffered navTmpl "layouts/partial" [] "" := by
  decide

/-- Claim C4 as amended: in the single-map engine, a full render of a
Partial selects the fixed "layouts/partial" wrapper whenever the wrapper
block is attached and any explicit override names an attached layout (the
override is then disregarded); an override naming an unattached layout
instead fails, and in the bow engine partials carry no wrapper at all. -/
theorem app_wrapper_for_partials (inj : Data → Data) (vs : List (String × AppView))
    (ov : Option String) (nm : String) (d : Data) (sink : String) (v : AppView)
    (hv : mapGet vs nm = some v) (hp : v.isPartial = true)
    (hw : hasBlock v.tmpl "layouts/partial" = true)
    (hov : ∀ l, ov = some l → hasBlock v.tmpl ("layouts/" ++ l) = true) :
    appRender inj vs ov nm d sink = renderBuffered v.tmpl "layouts/partial" (inj d) sink := by
  have hres : appResolveLayout v ov = Except.ok "layouts/partial" := by
    cases ov with
    | none => simp [appResolveLayout, hp, hw]
    | some l => simp [appResolveLayout, hov l rfl, hp, hw]
  simp [appRender, hv, hres]

/-- Witness for the amended C4: the Partial "nav" rendered with no
override executes its "layouts/partial" wrapper. -/
theorem app_wrapper_for_partials_witness :
    appRender id navViews none "nav" [] "" = renderBuffered navTmpl "layouts/partial" [] "" :=
  app_wrapper_for_partials id navViews none "nav" [] "" { tmpl := navTmpl, isPartial := true }
    (by decide) rfl (by decide) (fun _ h => Option.noConfusion h)

/-- Claim C5 (confirmed): a page render flagged skip-layout executes only
the page's bare "main" block — whatever layout would otherwise have been
selected, that layout is never executed, so no wrapper markup reaches the
sink (when the requested layout is not even attached, the render fails
with nothing written, per the check that precedes the skip flag). -/
theorem skip_layout_bare_main (inj : Data → Data) (bw : BowViews) (lo : Option String)
    (nm : String) (d : Data) (sink : String) (t : Template)
    (hp : mapGet bw.partials nm = none) (hg : mapGet bw.pages nm = some t) :
    bowRender inj bw ⟨lo, true⟩ nm d sink =
      (if hasBlock t (requestedLayout lo) then renderBuffered t "main" (inj d) sink
       else (sink, some (RenderErr.layoutNotFound (requestedLayout lo)))) := by
  simp [bowRender, hp, hg]

/-- Witness for C5: a skip-layout render of a page with a base layout
attached emits the bare body "BARE", not the wrapper markup. -/
theorem skip_layout_bare_main_witness :
    bowRender id bwSkip ⟨none, true⟩ "p" [] "" = ("BARE", none) := by
  rw [skip_layout_bare_main id bwSkip none "p" [] "" skipPage (by decide) (by decide)]
  decide

/-- Counterexample to claim C6: two discovered partial source paths,
`html/_a.html` and `html/a/_.html`, derive the same logical name "a", yet
`Views.Parse` does not fail — it produces a registry in which the
later-parsed file has silently replaced the earlier one. -/
theorem build_collision_succeeds_cex :
    colA ≠ colB
    ∧ templateName colA = templateName colB
    ∧ classify colA = ViewKind.partialView
    ∧ classify colB = ViewKind.partialView
    ∧ bowParse colBody [colA, colB] =
        Except.ok { pages := [], partials := [("a", [("main", [Node.text "_.html"])])] } := by
  refine ⟨by decide, by decide, by decide, by decide, by rfl⟩

/-- Claim C6 as amended: when two discovered source paths of the same
kind derive the same logical name, the build does not fail — the
later-parsed view silently replaces the earlier one under that name
(shown here for two colliding Partials building a one-entry registry). -/
theorem build_collision_last_wins (body : SrcFile → Except String (List Node))
    (f1 f2 : SrcFile) (n1 n2 : List Node)
    (hh1 : isHtml f1 = true) (hh2 : isHtml f2 = true)
    (hc1 : classify f1 = ViewKind.partialView) (hc2 : classify f2 = ViewKind.partialView)
    (hb1 : body f1 = Except.ok n1) (hb2 : body f2 = Except.ok n2)
    (hnm : templateName f1 = templateName f2) :
    bowParse body [f1, f2] =
      Except.ok { pages := [], partials := [(templateName f2, [("main", n2)])] } := by
  simp [bowParse, collect, hh1, hh2, hc1, hc2, buildPages, buildPartials, parseTemplate,
        hb1, hb2, addAssoc, mapSet, hnm]

/-- Witness for the amended C6: the concrete colliding pair builds the
registry holding only the second file's view. -/
theorem build_collision_last_wins_witness :
    bowParse colBody [colA, colB] =
      Except.ok { pages := [], partials := [(templateName colB, [("main", [Node.text "_.html"])])] } :=
  build_collision_last_wins colBody colA colB [Node.text "_a.html"] [Node.text "_.html"]
    (by decide) (by decide) (by decide) (by decide) rfl rfl (by decide)

/-- Claim C7 (confirmed): for every partial set, target, partial name and
data value, `RenderStream` with action `remove` performs no partial lookup
and no rendering — the result is the same for any partial set, including
one in which the name does not exist — and writes the envelope carrying
the remove action, the given target and an empty content fragment. -/
theorem stream_remove_shortcut (inj : Data → Data) (frags : Template) (target nm : String)
    (d : Data) (sink : String) :
    renderStream inj frags StreamAction.remove target nm d sink =
      (sink ++ streamWrapper StreamAction.remove target "", none) := by
  simp [renderStream, streamContent]

/-- Counterexample to claim C8: with the Partial "item" rendering to
`<li>X</li>`, the append stream for target "list" is not the claimed byte
string — the claim omits the wrapper template's newline-and-indent
whitespace around the content fragment. -/
theorem stream_append_bytes_cex :
    renderStream id itemFrags StreamAction.append "list" "item" [] ""
      ≠ ("<turbo-stream action=\"append\" target=\"list\"><template>\n<li>X</li>\n</template></turbo-stream>",
         (none : Option RenderErr)) := by
  decide

/-- Claim C8 as amended: the append stream for target "list" around the
Partial "item" (rendering to `<li>X</li>`) is exactly the wrapper
template's bytes — newline + two spaces before `<template>`, newline +
four spaces before the verbatim (unescaped) content fragment, newline +
two spaces before `</template>`, newline before `</turbo-stream>`. -/
theorem stream_append_exact_bytes :
    renderStream id itemFrags StreamAction.append "list" "item" [] "" =
      ("<turbo-stream action=\"append\" target=\"list\">\n  <template>\n    <li>X</li>\n  </template>\n</turbo-stream>",
       none) := by
  decide

/-- Claim C9 (confirmed): the build walk's classification, characterised
over the collected lists: a file lands in the partials list exactly when
it is an html file whose base name starts with the marker (no condition
on the layouts folder — the marker rule wins even there); in the layouts
list exactly when it is an unmarked html file whose first directory
segment below the root (`dirs[1]`) is the layouts folder; in the pages
list exactly when it is any other html file; and non-html files land in
no list at all. -/
theorem walk_classification (files : List SrcFile) (f : SrcFile) :
    (f ∈ (collect files).2.1 ↔ f ∈ files ∧ isHtml f = true ∧ hasMarker (baseOf f) = true)
  ∧ (f ∈ (collect files).2.2 ↔ f ∈ files ∧ isHtml f = true ∧ hasMarker (baseOf f) = false
      ∧ (dirsOf f)[1]? = some layoutsFolder)
  ∧ (f ∈ (collect files).1 ↔ f ∈ files ∧ isHtml f = true ∧ hasMarker (baseOf f) = false
      ∧ ¬ (dirsOf f)[1]? = some layoutsFolder) := by
  induction files with
  | nil => simp [collect]
  | cons g rest ih =>
    obtain ⟨ih1, ih2, ih3⟩ := ih
    by_cases hg : isHtml g = true
    · by_cases hm : hasMarker (baseOf g) = true
      · have hc : classify g = ViewKind.partialView := by simp [classify, hm]
        have hstep : collect (g :: rest) =
            ((collect rest).1, g :: (collect rest).2.1, (collect rest).2.2) := by
          simp [collect, hg, hc]
        rw [hstep]
        refine ⟨?_, ?_, ?_⟩
        · rw [List.mem_cons, ih1]
          refine cons_head_iff (fun x => isHtml x = true ∧ hasMarker (baseOf x) = true) ?_
          exact ⟨hg, hm⟩
        · rw [ih2]
          refine skip_head_iff (fun x => isHtml x = true ∧ hasMarker (baseOf x) = false ∧ (dirsOf x)[1]? = some layoutsFolder) ?_
          rintro ⟨-, h2, -⟩
          rw [hm] at h2
          exact Bool.noConfusion h2
        · rw [ih3]
          refine skip_head_iff (fun x => isHtml x = true ∧ hasMarker (baseOf x) = false ∧ ¬ (dirsOf x)[1]? = some layoutsFolder) ?_
          rintro ⟨-, h2, -⟩
          rw [hm] at h2
          exact Bool.noConfusion h2
      · have hmf : hasMarker (baseOf g) = false := by simpa using hm
        by_cases hd : (dirsOf g)[1]? = some layoutsFolder
        · have hc : classify g = ViewKind.layout := by simp [classify, hmf, hd]
          have hstep : collect (g :: rest) =
              ((collect rest).1, (collect rest).2.1, g :: (collect rest).2.2) := by
            simp [collect, hg, hc]
          rw [hstep]
          refine ⟨?_, ?_, ?_⟩
          · rw [ih1]
            refine skip_head_iff (fun x => isHtml x = true ∧ hasMarker (baseOf x) = true) ?_
            rintro ⟨-, h2⟩
            rw [hmf] at h2
            exact Bool.noConfusion h2
          · rw [List.mem_cons, ih2]
            refine cons_head_iff (fun x => isHtml x = true ∧ hasMarker (baseOf x) = false ∧ (dirsOf x)[1]? = some layoutsFolder) ?_
            exact ⟨hg, hmf, hd⟩
          · rw [ih3]
            refine skip_head_iff (fun x => isHtml x = true ∧ hasMarker (baseOf x) = false ∧ ¬ (dirsOf x)[1]? = some layoutsFolder) ?_
            rintro ⟨-, -, h3⟩
            exact h3 hd
        · have hc : classify g = ViewKind.page := by simp [classify, hmf, hd]
          have hstep : collect (g :: rest) =
              (g :: (collect rest).1, (collect rest).2.1, (collect rest).2.2) := by
            simp [collect, hg, hc]
          rw [hstep]
          refine ⟨?_, ?_, ?_⟩
          · rw [ih1]
            refine skip_head_iff (fun x => isHtml x = true ∧ hasMarker (baseOf x) = true) ?_
            rintro ⟨-, h2⟩
            rw [hmf] at h2
            exact Bool.noConfusion h2
          · rw [ih2]
            refine skip_head_iff (fun x => isHtml x = true ∧ hasMarker (baseOf x) = false ∧ (dirsOf x)[1]? = some layoutsFolder) ?_
            rintro ⟨-, -, h3⟩
            exact hd h3
          · rw [List.mem_cons, ih3]
            refine cons_head_iff (fun x => isHtml x = true ∧ hasMarker (baseOf x) = false ∧ ¬ (dirsOf x)[1]? = some layoutsFolder) ?_
            exact ⟨hg, hmf, hd⟩
    · have hgf : isHtml g = false := by simpa using hg
      have hstep : collect (g :: rest) = collect rest := by simp [collect, hgf]
      rw [hstep]
      refine ⟨?_, ?_, ?_⟩
      · rw [ih1]
        refine skip_head_iff (fun x => isHtml x = true ∧ hasMarker (baseOf x) = true) ?_
        rintro ⟨h1, -⟩
        rw [hgf] at h1
        exact Bool.noConfusion h1
      · rw [ih2]
        refine skip_head_iff (fun x => isHtml x = true ∧ hasMarker (baseOf x) = false ∧ (dirsOf x)[1]? = some layoutsFolder) ?_
        rintro ⟨h1, -⟩
        rw [hgf] at h1
        exact Bool.noConfusion h1
      · rw [ih3]
        refine skip_head_iff (fun x => isHtml x = true ∧ hasMarker (baseOf x) = false ∧ ¬ (dirsOf x)[1]? = some layoutsFolder) ?_
        rintro ⟨h1, -⟩
        rw [hgf] at h1
        exact Bool.noConfusion h1

/-- Claim C10 (confirmed): the full render entry point of the bow engine
looks the name up among partials first; whenever the name is present in
the partial registry, the render is the partial's bare "main" render,
whatever the page registry holds under the same name — the page template
is never executed. -/
theorem partials_shadow_pages (inj : Data → Data) (bw : BowViews) (ctx : BowCtx)
    (nm : String) (d : Data) (sink : String) (p : Template)
    (hp : mapGet bw.partials nm = some p) :
    bowRender inj bw ctx nm d sink = renderBuffered p "main" (inj d) sink := by
  simp [bowRender, hp]

/-- Witness for C10: with "x" registered as both a page and a partial, a
render of "x" produces the partial's output. -/
theorem partials_shadow_pages_witness :
    bowRender id bwBoth ⟨none, false⟩ "x" [] "" = renderBuffered fragX "main" [] "" :=
  partials_shadow_pages id bwBoth ⟨none, false⟩ "x" [] "" fragX (by decide)
